import Mathlib

/-!
Verification development for the `chatbot-ui` federated source-aggregation
routes (`app/api/sources/route.ts` and its historical variants, plus
`lib/utils.ts`).  The JavaScript/TypeScript code is shallowly embedded:

* JS strings are Lean `String`s (scanned as `List Char` where needed);
* `undefined`/`null` string values are `Option String`; JS `a || b` on
  strings is `jsOrStr`/`jsOrO` (empty string is falsy), `a ?? b` is `Option.getD`;
* HTTP calls are abstracted as `HttpResp` values handed to the adapter;
  an adapter that returns before its `fetch` is a Lean function that is
  constant in its `HttpResp` argument;
* the ad-hoc regex scanning of the LexML SRU XML is embedded as bounded
  linear scans over `List Char` mirroring the exact regexes used.
-/

namespace Sources

/-- Membership test mirroring the JS character class `[,\s]` and `\s`.
Covers the ASCII whitespace characters plus NBSP; the rarer Unicode
space code points that JS `\s` also matches are omitted (no input in
this development contains them). -/
def isJsWs (c : Char) : Bool :=
  c = ' ' || c = '\t' || c = '\n' || c = '\r' || c = '\x0b' || c = '\x0c' || c = ' '

/-- Embedding of JS `String.prototype.toLowerCase` (ASCII range). -/
def toLowerJS (s : String) : String := ⟨s.data.map Char.toLower⟩

/-- Embedding of JS `String.prototype.trim`. -/
def trimJS (s : String) : String :=
  ⟨((s.data.dropWhile isJsWs).reverse.dropWhile isJsWs).reverse⟩

/-- Embedding of `str.replace(/\s/g, "")` (and of `replace(/\s+/g, "")`,
which removes the same characters). -/
def stripWs (s : String) : String := ⟨s.data.filter (fun c => !isJsWs c)⟩

/-- Embedding of JS `String.prototype.includes(c)` for a one-character
needle, e.g. `t.includes(" ")` or `ano.includes("-")`. -/
def hasChar (s : String) (c : Char) : Bool := s.data.any (· == c)

/-- Numeric value of a nonempty digit prefix, `none` when the list does
not start with a digit (the `NaN` outcome of JS `parseInt`). -/
def digitsPrefixVal (l : List Char) : Option Nat :=
  let d := l.takeWhile Char.isDigit
  if d = [] then none
  else some (d.foldl (fun a c => a * 10 + (c.toNat - 48)) 0)

/-- Embedding of JS `parseInt(s)` (radix 10): skip leading whitespace,
optional sign, then the longest digit prefix; `none` models `NaN`. -/
def parseIntJS (s : String) : Option Int :=
  match s.data.dropWhile isJsWs with
  | [] => none
  | c :: r =>
    if c = '-' then (digitsPrefixVal r).map (fun n => -(n : Int))
    else if c = '+' then (digitsPrefixVal r).map (fun n => (n : Int))
    else (digitsPrefixVal (c :: r)).map (fun n => (n : Int))

/-- Embedding of the guard `Number(s)` used truthily (part_002's year
range: `if (y1 && y2)`): `some v` iff `s` is a (signed) decimal integer
literal with nonzero value; `""` (JS value `0`), `"0"`, and unparsable
strings all fail the truthiness test.  Fractional, hexadecimal and
exponent literals that JS `Number` also accepts are not modelled; no
claim in this development evaluates them. -/
def jsNumTruthy (s : String) : Option Int :=
  let core : List Char → Option Int := fun l =>
    if l ≠ [] ∧ l.all Char.isDigit then
      some ((l.foldl (fun a c => a * 10 + (c.toNat - 48)) 0 : Nat) : Int)
    else none
  let v : Option Int :=
    match s.data with
    | [] => none
    | c :: r =>
      if c = '-' then (core r).map (fun n => -n)
      else if c = '+' then core r
      else core (c :: r)
  v.bind (fun n => if n = 0 then none else some n)

/-- JS `a || b` where `a : Option String` models a possibly-undefined
string expression: falsy (`undefined` or `""`) falls through to `b`. -/
def jsOrStr (a : Option String) (b : String) : String :=
  match a with
  | some s => if s = "" then b else s
  | none => b

/-- JS `a || b` with both sides possibly undefined. -/
def jsOrO (a b : Option String) : Option String :=
  match a with
  | some s => if s = "" then b else some s
  | none => b

/-- Split on the character class `p`, mirroring one JS
`split(/[class]+/)` step per separator character.  JS collapses runs of
separators into a single split while this version emits an empty token
between adjacent separators; every caller in the sources immediately
applies `.filter(Boolean)`, after which the two agree. -/
def splitCharsAux (p : Char → Bool) : List Char → List Char → List String
  | [], acc => [⟨acc.reverse⟩]
  | c :: cs, acc =>
    if p c then ⟨acc.reverse⟩ :: splitCharsAux p cs []
    else splitCharsAux p cs (c :: acc)

/-- Embedding of `excluir.split(/[,\s]+/)` (up to empty tokens, see
`splitCharsAux`). -/
def splitCommaWs (s : String) : List String :=
  splitCharsAux (fun c => c == ',' || isJsWs c) s.data []

/-- Embedding of `s.split(/\s+/)` (up to empty tokens, see
`splitCharsAux`). -/
def splitWs (s : String) : List String :=
  splitCharsAux isJsWs s.data []

/-- Embedding of JS `s.split(sep)` for a one-character literal
separator (used with `","` and `"-"`): split at every occurrence,
keeping empty tokens, as JS does for a string separator. -/
def splitOnChar (sep : Char) (s : String) : List String :=
  splitCharsAux (· == sep) s.data []

/-- Embedding of JS `Array.prototype.join(sep)` on string arrays. -/
def joinSep (sep : String) : List String → String
  | [] => ""
  | [x] => x
  | x :: y :: xs => x ++ sep ++ joinSep sep (y :: xs)

theorem splitCharsAux_no_sep (p : Char → Bool) :
    ∀ (l acc : List Char), (∀ c ∈ acc, p c = false) →
      ∀ t ∈ splitCharsAux p l acc, ∀ c ∈ t.data, p c = false := by
  intro l
  induction l with
  | nil =>
    intro acc hacc t ht c hc
    simp only [splitCharsAux, List.mem_singleton] at ht
    subst ht
    exact hacc c (by simpa using hc)
  | cons x xs ih =>
    intro acc hacc t ht c hc
    simp only [splitCharsAux] at ht
    by_cases hx : p x
    · rw [if_pos hx] at ht
      rcases List.mem_cons.mp ht with h | h
      · subst h
        exact hacc c (by simpa using hc)
      · exact ih [] (by simp) t h c hc
    · rw [if_neg hx] at ht
      refine ih (x :: acc) ?_ t ht c hc
      intro d hd
      rcases List.mem_cons.mp hd with h | h
      · subst h; simpa using hx
      · exact hacc d h

/-- Tokens produced by `splitCommaWs` contain no separator characters;
in particular no space. -/
theorem splitCommaWs_no_space (s : String) :
    ∀ t ∈ splitCommaWs s, ∀ c ∈ t.data, (c == ',' || isJsWs c) = false := by
  intro t ht c hc
  exact splitCharsAux_no_sep _ s.data [] (by simp) t ht c hc

theorem dropWhile_len_le {α : Type} (p : α → Bool) (l : List α) :
    (l.dropWhile p).length ≤ l.length := by
  induction l with
  | nil => simp
  | cons a l ih =>
    by_cases h : p a
    · simp only [List.dropWhile_cons, if_pos h]
      exact Nat.le_succ_of_le ih
    · simp [List.dropWhile_cons, if_neg h]

/-- Embedding of `str.replace(/\s+/g, " ")`: collapse each maximal
whitespace run to a single space.  The recursion is fuelled so that it
reduces definitionally; each step consumes at least one character
(`dropWhile_len_le`), so fuel `l.length + 1` never runs out. -/
def collapseWsF (fuel : Nat) (l : List Char) : List Char :=
  match fuel, l with
  | 0, _ => []
  | _, [] => []
  | fuel + 1, c :: r =>
    if isJsWs c then ' ' :: collapseWsF fuel (r.dropWhile isJsWs)
    else c :: collapseWsF fuel r

def collapseWs (l : List Char) : List Char := collapseWsF (l.length + 1) l

/-! ### Bounded linear scanning over the XML text

The LexML adapters scan the SRU response with regexes of three shapes:
record blocks `/<tag\b[\s\S]*?<\/tag>/gi`, field content
`/<tag[^>]*>([\s\S]*?)<\/tag>/i`, and the four-digit date
`/<dc:date[^>]*>(\d{4})/i`.  The scanners below mirror them as linear
scans over `List Char`; `CI` marks case-insensitive comparison (the `i`
flag). -/

/-- Case-insensitive prefix test (the `i` regex flag, ASCII folding). -/
def isPrefixCI : List Char → List Char → Bool
  | [], _ => true
  | _ :: _, [] => false
  | p :: ps, c :: cs => (p.toLower == c.toLower) && isPrefixCI ps cs

/-- Split `l` at the first (case-insensitive) occurrence of `pat`,
returning the part before the match, the matched original characters,
and the part after. -/
def findSplitCI (pat : List Char) : List Char → Option (List Char × List Char × List Char)
  | [] => if pat = [] then some ([], [], []) else none
  | c :: cs =>
    if isPrefixCI pat (c :: cs) then
      some ([], (c :: cs).take pat.length, (c :: cs).drop pat.length)
    else
      match findSplitCI pat cs with
      | some (a, m, b) => some (c :: a, m, b)
      | none => none

theorem findSplitCI_post_lt (pat : List Char) (hp : pat ≠ []) :
    ∀ (l a m b : List Char), findSplitCI pat l = some (a, m, b) →
      b.length < l.length := by
  intro l
  induction l with
  | nil =>
    intro a m b h
    simp only [findSplitCI] at h
    rw [if_neg hp] at h
    exact Option.noConfusion h
  | cons c cs ih =>
    intro a m b h
    simp only [findSplitCI] at h
    split at h
    · simp only [Option.some.injEq, Prod.mk.injEq] at h
      obtain ⟨-, -, hb⟩ := h
      subst hb
      simp only [List.length_drop, List.length_cons]
      have hplen : 0 < pat.length := List.length_pos.mpr hp
      omega
    · split at h
      · rename_i a' m' b' hrec
        simp only [Option.some.injEq, Prod.mk.injEq] at h
        obtain ⟨-, -, hb⟩ := h
        subst hb
        exact Nat.lt_succ_of_lt (ih a' m' b' hrec)
      · exact Option.noConfusion h

/-- Word character, JS `\w` / the complement used by `\b`. -/
def isWordChar (c : Char) : Bool := c.isAlphanum || c = '_'

/-- Find the suffix of `l` beginning at the first occurrence of
`<tag` that is followed by a word boundary (the `/<tag\b/i` part of the
record-block regexes). -/
def findStartCI (tag : List Char) : List Char → Option (List Char)
  | [] => none
  | c :: cs =>
    if isPrefixCI ('<' :: tag) (c :: cs)
        && !isWordChar (((c :: cs).drop (tag.length + 1)).headD ' ') then
      some (c :: cs)
    else findStartCI tag cs

theorem findStartCI_le (tag : List Char) :
    ∀ (l s : List Char), findStartCI tag l = some s → s.length ≤ l.length := by
  intro l
  induction l with
  | nil => intro s h; simp [findStartCI] at h
  | cons c cs ih =>
    intro s h
    simp only [findStartCI] at h
    split at h
    · injection h with h1; subst h1; exact le_refl _
    · exact Nat.le_succ_of_le (ih s h)

/-- One step of the global record-block regex
`/<tag\b[\s\S]*?<\/tag>/gi`: the next matched block (including its
delimiters) and the rest of the input after it. -/
def nextRecord (tag : List Char) (l : List Char) : Option (List Char × List Char) :=
  match findStartCI tag l with
  | none => none
  | some s =>
    match findSplitCI ('<' :: '/' :: (tag ++ ['>'])) s with
    | none => none
    | some (a, m, b) => some (a ++ m, b)

theorem nextRecord_lt (tag l c rest : List Char) :
    nextRecord tag l = some (c, rest) → rest.length < l.length := by
  intro h
  simp only [nextRecord] at h
  split at h
  · exact Option.noConfusion h
  · rename_i s hs
    split at h
    · exact Option.noConfusion h
    · rename_i a m b hf
      simp only [Option.some.injEq, Prod.mk.injEq] at h
      obtain ⟨-, hb⟩ := h
      subst hb
      calc b.length < s.length := findSplitCI_post_lt _ (by simp) s a m b hf
        _ ≤ l.length := findStartCI_le tag l s hs

/-- All record blocks, in order: the successive matches of the global
record regex.  Fuelled recursion: each match strictly shrinks the rest
of the input (`nextRecord_lt`), so fuel `l.length + 1` never runs
out. -/
def allChunksF (fuel : Nat) (tag : List Char) (l : List Char) : List (List Char) :=
  match fuel with
  | 0 => []
  | fuel + 1 =>
    match nextRecord tag l with
    | none => []
    | some (c, rest) => c :: allChunksF fuel tag rest

def allChunks (tag : List Char) (l : List Char) : List (List Char) :=
  allChunksF (l.length + 1) tag l

/-- One match of `/<tag[^>]*>([\s\S]*?)<\/tag>/i`: the captured content
and the rest of the input after the close tag.  The match is located at
the first `<tag` occurrence, the open tag ends at the first following
`>`, and the lazy capture runs to the first close tag after that; when
any of the three is missing no later start position can succeed either,
so the whole regex fails. -/
def extractTagSplit (tag : List Char) (l : List Char) : Option (List Char × List Char) :=
  match findSplitCI ('<' :: tag) l with
  | none => none
  | some (_, _, r1) =>
    match findSplitCI ['>'] r1 with
    | none => none
    | some (_, _, r2) =>
      match findSplitCI ('<' :: '/' :: (tag ++ ['>'])) r2 with
      | none => none
      | some (content, _, r3) => some (content, r3)

theorem extractTagSplit_lt (tag l c rest : List Char) :
    extractTagSplit tag l = some (c, rest) → rest.length < l.length := by
  intro h
  simp only [extractTagSplit] at h
  split at h
  · exact Option.noConfusion h
  · rename_i a1 m1 r1 h1
    split at h
    · exact Option.noConfusion h
    · rename_i a2 m2 r2 h2
      split at h
      · exact Option.noConfusion h
      · rename_i a3 m3 r3 h3
        simp only [Option.some.injEq, Prod.mk.injEq] at h
        obtain ⟨-, hb⟩ := h
        subst hb
        calc r3.length < r2.length := findSplitCI_post_lt _ (by simp) r2 a3 m3 r3 h3
          _ < r1.length := findSplitCI_post_lt _ (by simp) r1 a2 m2 r2 h2
          _ < l.length := findSplitCI_post_lt _ (by simp) l a1 m1 r1 h1

/-- First captured content of `/<tag[^>]*>([\s\S]*?)<\/tag>/i`. -/
def extractTagContent (tag : List Char) (l : List Char) : Option (List Char) :=
  (extractTagSplit tag l).map (·.1)

/-- All captured contents of the same pattern with the `g` flag
(used for `dc:description` in part_002).  Fuelled recursion: each
match strictly shrinks the rest (`extractTagSplit_lt`), so fuel
`l.length + 1` never runs out. -/
def allTagContentsF (fuel : Nat) (tag : List Char) (l : List Char) : List (List Char) :=
  match fuel with
  | 0 => []
  | fuel + 1 =>
    match extractTagSplit tag l with
    | none => []
    | some (c, rest) => c :: allTagContentsF fuel tag rest

def allTagContents (tag : List Char) (l : List Char) : List (List Char) :=
  allTagContentsF (l.length + 1) tag l

/-- Embedding of `/<tag[^>]*>(\d{4})/i` (the `dc:date` pattern): at
each successive `<tag` occurrence, the open tag ends at the first
following `>`; the match succeeds there iff the next four characters
are digits, otherwise scanning resumes at the next occurrence. -/
def scanDateF (fuel : Nat) (tag : List Char) (l : List Char) : Option (List Char) :=
  match fuel with
  | 0 => none
  | fuel + 1 =>
    match findSplitCI ('<' :: tag) l with
    | none => none
    | some (_, _, r1) =>
      match findSplitCI ['>'] r1 with
      | none => none
      | some (_, _, r2) =>
        let four := r2.take 4
        if four.length = 4 && four.all Char.isDigit then some four
        else scanDateF fuel tag r1

/-- Fuelled: each retry resumes after the failed `<tag` occurrence
(`findSplitCI_post_lt`), so fuel `l.length + 1` never runs out. -/
def scanDate (tag : List Char) (l : List Char) : Option (List Char) :=
  scanDateF (l.length + 1) tag l

/-- Embedding of `str.replace(/<[^>]+>/g, "")`: delete every
`<`…`>` tag segment (with at least one character between). -/
def stripTagsF (fuel : Nat) (l : List Char) : List Char :=
  match fuel, l with
  | 0, _ => []
  | _, [] => []
  | fuel + 1, c :: r =>
    if c = '<' then
      match findSplitCI ['>'] r with
      | some (before, _, after) =>
        if before = [] then c :: stripTagsF fuel r else stripTagsF fuel after
      | none => c :: stripTagsF fuel r
    else c :: stripTagsF fuel r

/-- Fuelled: each step consumes at least one character
(`findSplitCI_post_lt`), so fuel `l.length + 1` never runs out. -/
def stripTags (l : List Char) : List Char := stripTagsF (l.length + 1) l

/-- Embedding of part_002's
`/<dc:identifier[^>]*>(urn:[^<]+)<\/dc:identifier>/i`: at each
`<dc:identifier` occurrence the open tag ends at the first following
`>`; the capture must start with `urn:`, run over at least one
non-`<` character, and be closed immediately by `</dc:identifier>`;
on failure scanning resumes at the next occurrence. -/
def scanIdentUrnF (fuel : Nat) (l : List Char) : Option String :=
  match fuel with
  | 0 => none
  | fuel + 1 =>
    match findSplitCI ('<' :: "dc:identifier".data) l with
    | none => none
    | some (_, _, r1) =>
      match findSplitCI ['>'] r1 with
      | none => none
      | some (_, _, r2) =>
        if isPrefixCI "urn:".data r2 then
          match findSplitCI ['<'] (r2.drop 4) with
          | some (mid, _, r4) =>
            if mid ≠ [] && isPrefixCI ('/' :: ("dc:identifier".data ++ ['>'])) r4 then
              some ⟨r2.take 4 ++ mid⟩
            else scanIdentUrnF fuel r1
          | none => scanIdentUrnF fuel r1
        else scanIdentUrnF fuel r1

/-- Fuelled: each retry resumes after the failed `<dc:identifier`
occurrence (`findSplitCI_post_lt`), so fuel `l.length + 1` never runs
out. -/
def scanIdentUrn (l : List Char) : Option String :=
  scanIdentUrnF (l.length + 1) l

/-- Embedding of `/\b(19|20)\d{2}\b/` (part_002's year fallback):
first four-digit token starting `19`/`20` with word boundaries on both
sides; `prev` is the character before the current position (a
non-word sentinel at the start). -/
def pickYearBounded (prev : Char) (l : List Char) : Option Nat :=
  match l with
  | a :: b :: c :: d :: rest =>
    if !isWordChar prev && ((a = '1' && b = '9') || (a = '2' && b = '0'))
        && c.isDigit && d.isDigit && !isWordChar (rest.headD ' ') then
      some ([a, b, c, d].foldl (fun acc x => acc * 10 + (x.toNat - 48)) 0)
    else pickYearBounded a (b :: c :: d :: rest)
  | _ => none

/-- Embedding of part_000's `pickYearFromText` regex `/(19|20)\d{2}/`
(no word boundaries): first such four-character window. -/
def pickYearFromText (l : List Char) : Option Nat :=
  match l with
  | a :: b :: c :: d :: rest =>
    if ((a = '1' && b = '9') || (a = '2' && b = '0')) && c.isDigit && d.isDigit then
      some ([a, b, c, d].foldl (fun acc x => acc * 10 + (x.toNat - 48)) 0)
    else pickYearFromText (b :: c :: d :: rest)
  | _ => none

/-! ### Canonical record model -/

/-- Canonical result record (`type Item` of the consolidated route;
the first variant's `SourceItem` adds `doi`, used by its dedup; the
`extra` map, which no claim touches, is omitted). -/
structure Item where
  source : String
  title : String
  url : Option String := none
  year : Option Int := none
  authors : Option (List String) := none
  snippet : Option String := none
  doi : Option String := none
deriving DecidableEq, Repr

/-- Per-provider outcome (`type FetchResult = { items: Item[]; error?: string }`). -/
structure FetchResult where
  items : List Item
  error : Option String := none
deriving DecidableEq, Repr

/-! ### LexML record extraction, consolidated route (`parseLexmlDC`,
route.ts lines 563–590) -/

/-- Build one item from one `<record>…</record>` chunk, mirroring the
body of the consolidated route's `parseLexmlDC` loop. -/
def mkItemV1 (chunk : List Char) : Item :=
  let title : String :=
    jsOrStr ((extractTagContent "dc:title".data chunk).map (fun t => trimJS ⟨t⟩)) "Sem título"
  let urn : String :=
    jsOrStr ((extractTagContent "urn".data chunk).map (fun t => trimJS ⟨t⟩)) ""
  let url : Option String :=
    if urn ≠ "" then some ("https://www.lexml.gov.br/urn/" ++ urn) else none
  let year : Option Int :=
    (scanDate "dc:date".data chunk).map
      (fun d => ((d.foldl (fun a c => a * 10 + (c.toNat - 48)) 0 : Nat) : Int))
  let desc : Option String :=
    (extractTagContent "dc:description".data chunk).map (fun t => trimJS ⟨t⟩)
  { source := "lexml", title := title, url := url, year := year, snippet := desc }

/-- Consolidated route's `parseLexmlDC(xml, limit)`.  The JS loop
`while ((m = recRe.exec(xml)) && items.length < limit)` pushes one item
per matched block and stops at `limit`; that equals mapping over all
blocks and taking the first `limit` items. -/
def parseLexmlDC (xml : String) (limit : Nat) : List Item :=
  ((allChunks "record".data xml.data).map mkItemV1).take limit

/-! ### LexML record extraction, part_002 (`parseLexmlDC` there,
lines 434–479; record tag `srw:record`, titleless blocks dropped) -/

/-- Build the optional item from one `<srw:record>` chunk, mirroring
part_002's loop body: `if (title) out.push(...)`. -/
def mkItemV2 (chunk : List Char) : Option Item :=
  let title : String :=
    ((extractTagContent "dc:title".data chunk).map
      (fun t => trimJS ⟨collapseWs t⟩)).getD ""
  let urn : String :=
    jsOrStr ((extractTagContent "urn".data chunk).map (fun t => trimJS ⟨t⟩))
      (jsOrStr (scanIdentUrn chunk) "")
  let descs : List String :=
    ((allTagContents "dc:description".data chunk).map
      (fun x => trimJS ⟨stripTags x⟩)).filter (· ≠ "")
  let resumo : String := descs.headD ""
  let yMatch : Option (List Char) :=
    match scanDate "dc:date".data chunk with
    | some d => some d
    | none => (pickYearBounded ' ' chunk).map (fun n => (toString n).data)
  let url : Option String :=
    if urn ≠ "" then some ("https://www.lexml.gov.br/urn/" ++ urn) else none
  if title ≠ "" then
    some { source := "lexml", title := title, url := url,
           year := yMatch.map (fun d => ((d.foldl (fun a c => a * 10 + (c.toNat - 48)) 0 : Nat) : Int)),
           authors := none,
           snippet := if resumo ≠ "" then some resumo else none }
  else none

/-- part_002's `parseLexmlDC(xml, limit)`: as for the consolidated
version, the bounded `while`/`exec` loop equals filter-mapping all
blocks and taking the first `limit` survivors. -/
def parseLexmlDCv2 (xml : String) (limit : Nat) : List Item :=
  ((allChunks "srw:record".data xml.data).filterMap mkItemV2).take limit

/-! ### Boolean CQL builder, consolidated route (`buildLexmlCQL`,
route.ts lines 478–561).  The request parameters are modelled as the
raw query-string values (empty string for an absent parameter, as
`params.get(x) || ""` produces); `term` stands for
`params.get("term") || params.get("q")`. -/

structure LexmlParams where
  term : String := ""
  tipo : String := ""
  numero : String := ""
  ano : String := ""
  localidade : String := ""
  autoridade : String := ""
  excluir : String := ""
deriving DecidableEq, Repr

structure CqlResult where
  cql : String
  ok : Bool
  why : Option String := none
deriving DecidableEq, Repr

/-- `term` dimension (rule at lines 489–493): phrase match on title or
description. -/
def termClause (term : String) : String :=
  "(dc.title all \"" ++ term ++ "\" or dc.description all \"" ++ term ++ "\")"

/-- `tipo_documento` dimension (lines 495–508). -/
def tipoClause (tipo : String) : Option String :=
  let tipos := ((splitOnChar ',' tipo).map trimJS).filter (· ≠ "")
  if tipos = [] then none
  else some ("(" ++ joinSep " or "
    (tipos.map (fun t =>
      if hasChar t ' ' then "facet-tipoDocumento all \"" ++ t ++ "\""
      else "facet-tipoDocumento any \"" ++ t ++ "\"")) ++ ")")

/-- `numero` dimension (lines 510–512). -/
def numeroClause (numero : String) : Option String :=
  if numero = "" then none
  else some ("(urn any \"" ++ numero ++ "\" or dc.title any \"" ++ numero ++ "\")")

/-- `ano` dimension (lines 514–525): single year, or a range whose two
sides must both survive `parseInt`. -/
def anoClause (ano : String) : Option String :=
  if ano = "" then none
  else if hasChar ano '-' then
    match parseIntJS ((splitOnChar '-' (stripWs ano)).getD 0 ""),
          parseIntJS ((splitOnChar '-' (stripWs ano)).getD 1 "") with
    | some ai, some bi =>
      some ("(date >= \"" ++ toString ai ++ "\" and date <= \"" ++ toString bi ++ "\")")
    | _, _ => none
  else some ("date any \"" ++ ano ++ "\"")

/-- `localidade` dimension (lines 527–533). -/
def localidadeClause (localidade : String) : Option String :=
  if localidade = "" then none
  else if hasChar localidade ' ' then some ("localidade = \"" ++ localidade ++ "\"")
  else some ("localidade any \"" ++ localidade ++ "\"")

/-- `autoridade` dimension (lines 535–541). -/
def autoridadeClause (autoridade : String) : Option String :=
  if autoridade = "" then none
  else if hasChar autoridade ' ' then some ("autoridade = \"" ++ autoridade ++ "\"")
  else some ("autoridade any \"" ++ autoridade ++ "\"")

/-- Token list of the `excluir` dimension (lines 543–547):
`excluir.split(/[,\s]+/).map(w => w.trim()).filter(Boolean)`. -/
def palavrasOf (excluir : String) : List String :=
  ((splitCommaWs excluir).map trimJS).filter (· ≠ "")

/-- `excluir` dimension (lines 543–558). -/
def excluirClause (excluir : String) : Option String :=
  let palavras := palavrasOf excluir
  if palavras = [] then none
  else some ("not (" ++ joinSep " or "
    (palavras.map (fun p =>
      if hasChar p ' '
      then "(dc.title all \"" ++ p ++ "\" or dc.description all \"" ++ p ++ "\")"
      else "(dc.title any \"" ++ p ++ "\" or dc.description any \"" ++ p ++ "\")")) ++ ")")

/-- Consolidated route's `buildLexmlCQL`: every parameter is trimmed on
read; an empty `term` returns `{ ok: false, why: "missing_term" }`
immediately; otherwise the surviving per-dimension clauses are pushed
in source order and joined with `" and "`. -/
def buildLexmlCQL (p : LexmlParams) : CqlResult :=
  let term := trimJS p.term
  let tipo := trimJS p.tipo
  let numero := trimJS p.numero
  let ano := trimJS p.ano
  let localidade := trimJS p.localidade
  let autoridade := trimJS p.autoridade
  let excluir := trimJS p.excluir
  if term = "" then { cql := "", ok := false, why := some "missing_term" }
  else
    { cql := joinSep " and " (List.reduceOption
        [some (termClause term), tipoClause tipo, numeroClause numero,
         anoClause ano, localidadeClause localidade, autoridadeClause autoridade,
         excluirClause excluir]),
      ok := true, why := none }

/-! ### Boolean CQL builder, part_002 (`buildLexmlCQL` there,
lines 335–432).  Parameters come in as `string | null`
(`searchParams.get(...)`), modelled as `Option String`. -/

structure LexmlParamsV2 where
  term : Option String := none
  tipo_documento : Option String := none
  numero : Option String := none
  ano : Option String := none
  localidade : Option String := none
  autoridade : Option String := none
  excluir : Option String := none
deriving DecidableEq, Repr

/-- part_002 `term` dimension (lines 356–360): guard `if (term)`, trim,
guard `if (t)`. -/
def termClauseV2 : Option String → Option String
  | none => none
  | some term =>
    if term = "" then none
    else
      let t := trimJS term
      if t = "" then none
      else some ("(dc.title all \"" ++ t ++ "\" or dc.description all \"" ++ t ++ "\")")

/-- part_002 `tipo_documento` dimension (lines 362–376). -/
def tipoClauseV2 : Option String → Option String
  | none => none
  | some tipo =>
    if tipo = "" then none
    else
      let raw := ((splitOnChar ',' tipo).map trimJS).filter (· ≠ "")
      if raw = [] then none
      else some ("(" ++ joinSep " or "
        (raw.map (fun t =>
          if hasChar t ' ' then "facet-tipoDocumento all \"" ++ t ++ "\""
          else "facet-tipoDocumento any \"" ++ t ++ "\"")) ++ ")")

/-- part_002 `numero` dimension (lines 378–382). -/
def numeroClauseV2 : Option String → Option String
  | none => none
  | some numero =>
    if numero = "" ∨ trimJS numero = "" then none
    else
      let num := trimJS numero
      some ("(urn any \"" ++ num ++ "\" or dc.title any \"" ++ num ++ "\")")

/-- part_002 `ano` dimension (lines 384–395): the range guard is the
truthiness test `if (y1 && y2)` on `Number(parts[i])`. -/
def anoClauseV2 : Option String → Option String
  | none => none
  | some ano =>
    if ano = "" ∨ trimJS ano = "" then none
    else
      if hasChar (trimJS ano) '-' then
        match jsNumTruthy ((splitOnChar '-' (stripWs (trimJS ano))).getD 0 ""),
              jsNumTruthy ((splitOnChar '-' (stripWs (trimJS ano))).getD 1 "") with
        | some y1, some y2 =>
          some ("(date >= \"" ++ toString y1 ++ "\" and date <= \"" ++ toString y2 ++ "\")")
        | _, _ => none
      else some ("date any \"" ++ trimJS ano ++ "\"")

/-- part_002 `localidade` dimension (lines 397–403). -/
def localidadeClauseV2 : Option String → Option String
  | none => none
  | some localidade =>
    if localidade = "" ∨ trimJS localidade = "" then none
    else
      let loc := trimJS localidade
      if hasChar loc ' ' then some ("localidade = \"" ++ loc ++ "\"")
      else some ("localidade any \"" ++ loc ++ "\"")

/-- part_002 `autoridade` dimension (lines 405–413). -/
def autoridadeClauseV2 : Option String → Option String
  | none => none
  | some autoridade =>
    if autoridade = "" ∨ trimJS autoridade = "" then none
    else
      let auth := trimJS autoridade
      if hasChar auth ' ' then some ("autoridade = \"" ++ auth ++ "\"")
      else some ("autoridade any \"" ++ auth ++ "\"")

/-- part_002 `excluir` dimension (lines 415–429): split on commas when
any comma is present, otherwise on whitespace runs; the per-token
clauses are not individually parenthesized in this variant. -/
def excluirClauseV2 : Option String → Option String
  | none => none
  | some excluir =>
    if excluir = "" ∨ trimJS excluir = "" then none
    else
      let arr :=
        if hasChar excluir ',' then (splitOnChar ',' excluir).map trimJS
        else (splitWs excluir).map trimJS
      let exClauses := (arr.filter (· ≠ "")).map (fun w =>
        if hasChar w ' '
        then "dc.title all \"" ++ w ++ "\" or dc.description all \"" ++ w ++ "\""
        else "dc.title any \"" ++ w ++ "\" or dc.description any \"" ++ w ++ "\"")
      if exClauses = [] then none
      else some ("not (" ++ joinSep " or " exClauses ++ ")")

/-- part_002's `buildLexmlCQL`: no `ok` flag — the surviving clauses
are pushed in source order and joined; an empty result string is what
`fetchLexmlAdvanced` later treats as `lexml_missing_filters`. -/
def buildLexmlCQLv2 (p : LexmlParamsV2) : String :=
  joinSep " and " (List.reduceOption
    [termClauseV2 p.term, tipoClauseV2 p.tipo_documento, numeroClauseV2 p.numero,
     anoClauseV2 p.ano, localidadeClauseV2 p.localidade, autoridadeClauseV2 p.autoridade,
     excluirClauseV2 p.excluir])

/-! ### Provider adapters

Each adapter is embedded as the pure function from its (abstracted)
HTTP outcome to its `FetchResult`.  `HttpResp α` carries the upstream
status and the parsed body; `httpOk` is `Response.ok`
(status in `[200, 299]`).  An adapter that bails out before calling
`fetch` is a Lean function that ignores (is constant in) its
`HttpResp` argument. -/

structure HttpResp (α : Type) where
  status : Nat
  body : α
deriving DecidableEq, Repr

def httpOk (status : Nat) : Bool := 200 ≤ status && status ≤ 299

/-- Raw OpenAlex work, with the fields the mappers read
(`extra`/`cited_by_count` omitted).  `publicationYear` models the
already-numeric outcome of `n(w?.publication_year)`; `authorships` the
list of `a?.author?.display_name` values; `invKeys` the key list of
`abstract_inverted_index` when present. -/
structure OpenAlexWork where
  title : Option String := none
  id : Option String := none
  hostVenueUrl : Option String := none
  landingPageUrl : Option String := none
  publicationYear : Option Int := none
  authorships : List (Option String) := []
  invKeys : Option (List String) := none
deriving DecidableEq, Repr

/-- Mapping of one OpenAlex work in the consolidated route's
`fetchOpenAlex` (route.ts lines 271–284). -/
def mapOpenAlexWork (w : OpenAlexWork) : Item :=
  { source := "openalex",
    title := w.title.getD "",
    url := some (w.id.getD (w.hostVenueUrl.getD "")),
    year := w.publicationYear,
    authors := some ((w.authorships.filterMap id).filter (· ≠ "")),
    snippet := w.invKeys.map (fun ks => joinSep " " (ks.take 40)) }

/-- Consolidated route's `fetchOpenAlex` (lines 258–289), given the
upstream response.  A thrown transport error (the `catch` branch) is
outside this embedding; the claims quantify over delivered statuses. -/
def fetchOpenAlexResult (limit : Nat) (resp : HttpResp (List OpenAlexWork)) : FetchResult :=
  if !httpOk resp.status then
    { items := [], error := some ("openalex_" ++ toString resp.status) }
  else
    { items := (resp.body.take limit).map mapOpenAlexWork }

/-- A raw SciELO author entry: either a plain name string or an object
with an optional `name` (the `typeof a === "string" ? a : a?.name`
dispatch). -/
inductive JsAuthor where
  | nameStr (s : String)
  | obj (name : Option String)
deriving DecidableEq, Repr

def jsAuthorName : JsAuthor → Option String
  | .nameStr s => some s
  | .obj n => n

/-- Raw SciELO search document (`j?.documents ?? j?.results ?? []`
entries), with the fields the mappers read. -/
structure ScieloDoc where
  title : Option String := none
  docTitle : Option String := none
  link : Option String := none
  url : Option String := none
  year : Option Int := none
  authors : List JsAuthor := []
  snippet : Option String := none
  content : Option String := none
deriving DecidableEq, Repr

structure ScieloBody where
  docs : List ScieloDoc
deriving DecidableEq, Repr

/-- Mapping of one SciELO document in part_002's `fetchScielo`
(lines 315–324); `Number(d?.year) || undefined` drops a zero year. -/
def mapScieloDocV2 (d : ScieloDoc) : Item :=
  { source := "scielo",
    title := d.title.getD (d.docTitle.getD ""),
    url := some (d.link.getD (d.url.getD "")),
    year := d.year.bind (fun y => if y = 0 then none else some y),
    authors := some ((d.authors.filterMap jsAuthorName).filter (· ≠ "")),
    snippet := jsOrO d.snippet d.content }

/-- Mapping of one OpenAlex work on part_002's SciELO 403 fallback
path (lines 289–306): tagged `scielo`, URL preference
`landing_page_url || id || host_venue.url || ""`. -/
def mapScieloViaOpenAlex (w : OpenAlexWork) : Item :=
  { source := "scielo",
    title := w.title.getD "",
    url := some (jsOrStr (jsOrO w.landingPageUrl (jsOrO w.id w.hostVenueUrl)) ""),
    year := w.publicationYear.bind (fun y => if y = 0 then none else some y),
    authors := some ((w.authorships.filterMap id).filter (· ≠ "")),
    snippet := w.invKeys.map (fun ks => joinSep " " (ks.take 40)) }

/-- part_002's `fetchScielo` (lines 262–330): on upstream 403 it makes
one OpenAlex fallback call; a successful fallback returns the mapped
fallback items together with the error code `scielo_403`; any other
non-success status returns zero items and `scielo_<status>`. -/
def fetchScieloV2 (limit : Nat) (primary : HttpResp ScieloBody)
    (oaFallback : HttpResp (List OpenAlexWork)) : FetchResult :=
  if primary.status = 403 then
    if !httpOk oaFallback.status then
      { items := [], error := some "scielo_403" }
    else
      { items := (oaFallback.body.take limit).map mapScieloViaOpenAlex,
        error := some "scielo_403" }
  else if !httpOk primary.status then
    { items := [], error := some ("scielo_" ++ toString primary.status) }
  else
    { items := (primary.body.docs.take limit).map mapScieloDocV2 }

/-- Raw SerpAPI organic result (the fields `fetchSerpWeb` reads). -/
structure SerpOrganic where
  title : Option String := none
  link : Option String := none
  snippet : Option String := none
deriving DecidableEq, Repr

/-- Consolidated route's `fetchSerpWeb` (lines 341–364): `key` models
`process.env.SERPAPI_API_KEY` (`serpApiKey = ... || ""`); with no key
the adapter returns `serpapi_missing_key` before any network call, so
the result is constant in `resp`. -/
def fetchSerpWeb (key : Option String) (limit : Nat)
    (resp : HttpResp (List SerpOrganic)) : FetchResult :=
  if key.getD "" = "" then { items := [], error := some "serpapi_missing_key" }
  else if !httpOk resp.status then
    { items := [], error := some ("serpapi_" ++ toString resp.status) }
  else
    { items := (resp.body.take limit).map (fun o =>
        { source := "openai_web",
          title := jsOrStr o.title (jsOrStr o.link ""),
          url := o.link,
          snippet := o.snippet }) }

/-- Consolidated route's `fetchPerplexity` (lines 436–474): the body is
the extracted citation URL list; with no `PPLX_API_KEY` the adapter
returns `perplexity_missing_key` without a network call. -/
def fetchPerplexityR (key : Option String) (limit : Nat)
    (resp : HttpResp (List String)) : FetchResult :=
  if key.getD "" = "" then { items := [], error := some "perplexity_missing_key" }
  else if !httpOk resp.status then
    { items := [], error := some ("perplexity_" ++ toString resp.status) }
  else
    { items := (resp.body.take limit).map (fun u =>
        { source := "perplexity", title := u, url := some u }) }

/-- Raw SerpAPI Google-Scholar organic row (fields read by part_000's
`fetchScholarSerp`). -/
structure ScholarRow where
  title : Option String := none
  link : Option String := none
  resultId : Option String := none
  summary : Option String := none
  authors : List (Option String) := []
  snippet : Option String := none
deriving DecidableEq, Repr

/-- part_000's `fetchScholarSerp` (lines 223–261): with no
`SERPAPI_API_KEY` it returns `scholar_missing_api_key` without a
network call (`_debug` and `extra` omitted). -/
def fetchScholarSerp0 (key : Option String) (limit : Nat)
    (resp : HttpResp (List ScholarRow)) : FetchResult :=
  if key.getD "" = "" then { items := [], error := some "scholar_missing_api_key" }
  else if !httpOk resp.status then
    { items := [], error := some ("scholar_" ++ toString resp.status) }
  else
    { items := (resp.body.take limit).map (fun r =>
        { source := "scholar",
          title := r.title.getD "",
          url := match r.link with | some l => some l | none => r.resultId,
          year := (pickYearFromText (jsOrStr r.summary "").data).map (fun n => (n : Int)),
          authors := some ((r.authors.filterMap id).filter (· ≠ "")),
          snippet := r.snippet }) }

/-! ### Fan-out orchestration -/

/-- Aggregate success payload of the consolidated route's `GET`
(route.ts lines 651–661) and of part_000's `GET` (lines 291–302);
`jsonClone` is the identity on this model. -/
structure Aggregate where
  ok : Bool
  query : String
  source : String
  count : Nat
  errors : List String
  items : List Item
deriving DecidableEq, Repr

/-- A route either returns an early error payload or the aggregate. -/
inductive RouteResp where
  | err (code : String)
  | ok (agg : Aggregate)
deriving DecidableEq, Repr

/-- `all.flatMap(r => r.items)` (route.ts line 648). -/
def flatItems : List FetchResult → List Item
  | [] => []
  | r :: rs => r.items ++ flatItems rs

/-- `all.forEach(r => r.error && errors.push(r.error))` (line 649);
also part_000's `results.map(r => r.error).filter(Boolean)`. -/
def collectErrors : List FetchResult → List String
  | [] => []
  | r :: rs =>
    match r.error with
    | some e => if e ≠ "" then e :: collectErrors rs else collectErrors rs
    | none => collectErrors rs

/-- The settled results of the seven adapters of the consolidated
route, in the order the handler pushes them. -/
structure ProviderOutcomes where
  openalex : FetchResult := { items := [] }
  scielo : FetchResult := { items := [] }
  openaiWeb : FetchResult := { items := [] }
  serpapiScholar : FetchResult := { items := [] }
  semanticscholar : FetchResult := { items := [] }
  perplexity : FetchResult := { items := [] }
  lexml : FetchResult := { items := [] }
deriving DecidableEq, Repr

/-- The jobs list built by the consolidated `GET` (lines 639–645):
`want(name)` is `src === "all" || src === name`. -/
def jobsRoute (srcL : String) (o : ProviderOutcomes) : List FetchResult :=
  (if srcL = "all" ∨ srcL = "openalex" then [o.openalex] else []) ++
  (if srcL = "all" ∨ srcL = "scielo" then [o.scielo] else []) ++
  (if srcL = "all" ∨ srcL = "openai_web" then [o.openaiWeb] else []) ++
  (if srcL = "all" ∨ srcL = "serpapi_scholar" then [o.serpapiScholar] else []) ++
  (if srcL = "all" ∨ srcL = "semanticscholar" then [o.semanticscholar] else []) ++
  (if srcL = "all" ∨ srcL = "perplexity" then [o.perplexity] else []) ++
  (if srcL = "all" ∨ srcL = "lexml" then [o.lexml] else [])

/-- Consolidated route's `GET` handler (route.ts lines 616–668),
abstracted over the settled adapter outcomes.  `src` is the raw
`source` parameter (default `"all"` applied by the caller model),
`qRaw` the raw `q` parameter, `term` the raw `term` parameter used in
the response's `query` echo.  The `limit` normalization (line 624) is
modelled separately as `limitOfRoute`; the outcomes already reflect
it. -/
def GETroute (src qRaw : String) (term : Option String)
    (o : ProviderOutcomes) : RouteResp :=
  let srcL := toLowerJS src
  if qRaw = "" ∧ srcL ≠ "lexml" then .err "missing_query"
  else
    let jobs := jobsRoute srcL o
    let items := flatItems jobs
    .ok { ok := true,
          query := jsOrStr term qRaw,
          source := srcL,
          count := items.length,
          errors := collectErrors jobs,
          items := items }

/-- The settled results of part_000's five adapters, in push order. -/
structure OutcomesV0 where
  openalex : FetchResult := { items := [] }
  scielo : FetchResult := { items := [] }
  lexml : FetchResult := { items := [] }
  s2 : FetchResult := { items := [] }
  scholar : FetchResult := { items := [] }
deriving DecidableEq, Repr

/-- Tasks list of part_000's `GET` (lines 276–280), with its alias
groups `s2|semanticscholar` and `scholar|serpapi`. -/
def tasksV0 (srcL : String) (o : OutcomesV0) : List FetchResult :=
  (if srcL = "all" ∨ srcL = "openalex" then [o.openalex] else []) ++
  (if srcL = "all" ∨ srcL = "scielo" then [o.scielo] else []) ++
  (if srcL = "all" ∨ srcL = "lexml" then [o.lexml] else []) ++
  (if srcL = "all" ∨ srcL = "s2" ∨ srcL = "semanticscholar" then [o.s2] else []) ++
  (if srcL = "all" ∨ srcL = "scholar" ∨ srcL = "serpapi" then [o.scholar] else [])

/-- part_000's `GET` handler (lines 264–306): empty query → 400
`missing_query`; an empty tasks list → 400 `unknown_source_<src>`
before `Promise.all` runs (`lexmlKind` and `debug` omitted). -/
def GETv0 (q src : String) (o : OutcomesV0) : RouteResp :=
  let qt := trimJS q
  let srcL := toLowerJS src
  if qt = "" then .err "missing_query"
  else
    let tasks := tasksV0 srcL o
    if tasks.length = 0 then .err ("unknown_source_" ++ srcL)
    else
      let items := flatItems tasks
      .ok { ok := true,
            query := qt,
            source := srcL,
            count := items.length,
            errors := collectErrors tasks,
            items := items }

/-! ### Deduplication (first variant's `runAggregation`,
route.ts lines 163–177) -/

/-- Dedup key: `(it.doi?.toLowerCase() ?? "") || it.title.toLowerCase()`. -/
def dedupKey (it : Item) : String :=
  jsOrStr (it.doi.map toLowerJS) (toLowerJS it.title)

/-- The `Map`-based first-occurrence dedup: JS `Map` preserves
insertion order, so `Array.from(dedup.values())` lists the first item
seen for each key, in order. -/
def dedupAux (seen : List String) : List Item → List Item
  | [] => []
  | it :: rest =>
    if dedupKey it ∈ seen then dedupAux seen rest
    else it :: dedupAux (dedupKey it :: seen) rest

def dedupItems (l : List Item) : List Item := dedupAux [] l

/-- Aggregated payload of the first variant (`AggregatedResponse`). -/
structure AggregatedResponse where
  query : String
  items : List Item
deriving DecidableEq, Repr

/-- First variant's `runAggregation` (lines 163–177): each of the four
`try` blocks contributes its mapped items or, when the fetch threw,
nothing (`none` here); the concatenation is then deduplicated. -/
def runAggregation (query : String) (oa sc lex s2 : Option (List Item)) :
    AggregatedResponse :=
  let items := oa.getD [] ++ sc.getD [] ++ lex.getD [] ++ s2.getD []
  { query := query, items := dedupItems items }

/-! ### Limit normalization -/

/-- Consolidated route's limit normalization (route.ts line 624):
`Math.max(1, Math.min(10, Number(sp.get("limit")) || 5))`.  The
argument models the value of `Number(...)`: `none` is `NaN` and, via
`|| 5`, behaves like `0`; any JS number a limit parameter can parse to
is a rational here. -/
def limitOfRoute (v : Option ℚ) : ℚ :=
  max 1 (min 10 (match v with
    | none => 5
    | some x => if x = 0 then 5 else x))

/-- part_003's `clamp(n, min, max) = Math.max(min, Math.min(max, n))`. -/
def clampJS (n mn mx : Int) : Int := max mn (min mx n)

/-- part_003's limit normalization (its `GET`):
`clamp(parseInt(searchParams.get("limit") || "5", 10) || 5, 1, 20)`.
The argument is the raw parameter (`none` when absent). -/
def limitOfV3 (limitParam : Option String) : Int :=
  let s := jsOrStr limitParam "5"
  clampJS (match parseIntJS s with
    | some k => if k = 0 then 5 else k
    | none => 5) 1 20

/-! ### Supporting lemmas -/

theorem dedupAux_key_not_mem :
    ∀ (l : List Item) (seen : List String) (a : Item),
      a ∈ dedupAux seen l → dedupKey a ∉ seen := by
  intro l
  induction l with
  | nil => intro seen a h; simp [dedupAux] at h
  | cons b l ih =>
    intro seen a h
    simp only [dedupAux] at h
    by_cases hb : dedupKey b ∈ seen
    · rw [if_pos hb] at h
      exact ih seen a h
    · rw [if_neg hb] at h
      rcases List.mem_cons.mp h with h1 | h1
      · subst h1; exact hb
      · have := ih (dedupKey b :: seen) a h1
        exact fun hc => this (List.mem_cons_of_mem _ hc)

theorem dedupAux_pairwise :
    ∀ (l : List Item) (seen : List String),
      (dedupAux seen l).Pairwise (fun a b => dedupKey a ≠ dedupKey b) := by
  intro l
  induction l with
  | nil => intro seen; simp [dedupAux]
  | cons b l ih =>
    intro seen
    simp only [dedupAux]
    by_cases hb : dedupKey b ∈ seen
    · rw [if_pos hb]; exact ih seen
    · rw [if_neg hb]
      refine List.Pairwise.cons ?_ (ih (dedupKey b :: seen))
      intro a ha
      have := dedupAux_key_not_mem l (dedupKey b :: seen) a ha
      exact fun hc => this (hc ▸ List.mem_cons_self _ _)

theorem dedupAux_of_fresh :
    ∀ (l : List Item) (seen : List String),
      (∀ a ∈ l, dedupKey a ∉ seen) →
      l.Pairwise (fun a b => dedupKey a ≠ dedupKey b) →
      dedupAux seen l = l := by
  intro l
  induction l with
  | nil => intro seen _ _; simp [dedupAux]
  | cons b l ih =>
    intro seen hfresh hpw
    have hb : dedupKey b ∉ seen := hfresh b (List.mem_cons_self _ _)
    simp only [dedupAux, if_neg hb]
    congr 1
    have hpw' := List.pairwise_cons.mp hpw
    refine ih (dedupKey b :: seen) ?_ hpw'.2
    intro a ha hc
    rcases List.mem_cons.mp hc with h1 | h1
    · exact hpw'.1 a ha h1.symm
    · exact hfresh a (List.mem_cons_of_mem _ ha) h1

/-- First-occurrence dedup is idempotent. -/
theorem dedupItems_idem (l : List Item) :
    dedupItems (dedupItems l) = dedupItems l := by
  unfold dedupItems
  exact dedupAux_of_fresh (dedupAux [] l) []
    (fun a _ => by simp) (dedupAux_pairwise l [])

theorem flatItems_append (rs₁ rs₂ : List FetchResult) :
    flatItems (rs₁ ++ rs₂) = flatItems rs₁ ++ flatItems rs₂ := by
  induction rs₁ with
  | nil => simp [flatItems]
  | cons r rs ih => simp [flatItems, ih]

theorem mem_of_mem_dropWhile {α : Type} (p : α → Bool) :
    ∀ (l : List α) (a : α), a ∈ l.dropWhile p → a ∈ l := by
  intro l
  induction l with
  | nil => intro a h; simpa using h
  | cons b l ih =>
    intro a h
    by_cases hb : p b
    · rw [List.dropWhile_cons, if_pos hb] at h
      exact List.mem_cons_of_mem _ (ih a h)
    · rw [List.dropWhile_cons, if_neg hb] at h
      exact h

theorem trimJS_mem (s : String) (c : Char) (h : c ∈ (trimJS s).data) : c ∈ s.data := by
  unfold trimJS at h
  have h1 := List.mem_reverse.mp h
  have h2 := mem_of_mem_dropWhile isJsWs _ _ h1
  have h3 := List.mem_reverse.mp h2
  exact mem_of_mem_dropWhile isJsWs _ _ h3

theorem palavrasOf_no_space (excluir : String) :
    ∀ p ∈ palavrasOf excluir, hasChar p ' ' = false := by
  intro p hp
  unfold palavrasOf at hp
  have hp1 := List.mem_of_mem_filter hp
  obtain ⟨t, ht, rfl⟩ := List.mem_map.mp hp1
  by_contra hcontra
  have hsp : (' ' : Char) ∈ (trimJS t).data := by
    unfold hasChar at hcontra
    rcases List.any_eq_true.mp (Bool.not_eq_false _ ▸ hcontra) with ⟨c, hc, hcc⟩
    have : c = ' ' := by simpa using hcc
    exact this ▸ hc
  have hmem : (' ' : Char) ∈ t.data := trimJS_mem t ' ' hsp
  have hns := splitCommaWs_no_space excluir t ht ' ' hmem
  simp [isJsWs] at hns

theorem mkItemV2_title_ne (c : List Char) (it : Item)
    (h : mkItemV2 c = some it) : it.title ≠ "" := by
  simp only [mkItemV2] at h
  split at h
  · rename_i hne
    simp only [Option.some.injEq] at h
    subst h
    exact hne
  · exact Option.noConfusion h

/-! ### Claims -/

/-- C5: for the `yearOrRange` dimension of the boolean-query builder,
`"2010-2015"` emits the conjunctive date-bound clause, while
`"2010-"`, `"-2015"`, `"abc-def"` — and in general any value
containing `-` where either side fails `parseInt` — emit no year
clause at all, silently; shown for the consolidated builder (with a
whole-builder instance) and for the part_002 variant's concrete
inputs. -/
theorem c5_year_range_parsing :
    (∀ ano : String, hasChar ano '-' = true →
      (parseIntJS ((splitOnChar '-' (stripWs ano)).getD 0 "") = none ∨
       parseIntJS ((splitOnChar '-' (stripWs ano)).getD 1 "") = none) →
      anoClause ano = none) ∧
    anoClause "2010-2015" = some "(date >= \"2010\" and date <= \"2015\")" ∧
    anoClause "2010-" = none ∧ anoClause "-2015" = none ∧ anoClause "abc-def" = none ∧
    buildLexmlCQL { term := "tax", ano := "2010-2015" } =
      { cql := "(dc.title all \"tax\" or dc.description all \"tax\") and (date >= \"2010\" and date <= \"2015\")",
        ok := true, why := none } ∧
    anoClauseV2 (some "2010-2015") = some "(date >= \"2010\" and date <= \"2015\")" ∧
    anoClauseV2 (some "2010-") = none ∧ anoClauseV2 (some "-2015") = none ∧
    anoClauseV2 (some "abc-def") = none := by
  refine ⟨?_, by decide, by decide, by decide, by decide, by decide,
    by decide, by decide, by decide, by decide⟩
  intro ano h1 h2
  have hne : ano ≠ "" := by
    intro he
    subst he
    simp [hasChar] at h1
  unfold anoClause
  rw [if_neg hne, if_pos h1]
  rcases h2 with h | h
  · rw [h]
  · cases parseIntJS ((splitOnChar '-' (stripWs ano)).getD 0 "") with
    | none => rfl
    | some v => rw [h]

/-- C5 witness: a concrete dashed value whose left side fails
`parseInt` produces no year clause. -/
theorem c5_witness :
    hasChar "x10-y20" '-' = true ∧ anoClause "x10-y20" = none :=
  ⟨by decide, c5_year_range_parsing.1 "x10-y20" (by decide) (Or.inl (by decide))⟩

/-- C9: in the consolidated route's exclusion-term builder the raw
string is split on commas and whitespace together, so no token can
contain a space; consequently the exact-phrase (`all`) branch is
unreachable and every emitted exclusion clause uses the single-token
`any` form. -/
theorem c9_exclusion_all_branch_unreachable (excluir : String) :
    ((palavrasOf excluir).all (fun p => !hasChar p ' ')) = true ∧
    excluirClause excluir =
      (if palavrasOf excluir = [] then none
       else some ("not (" ++ joinSep " or "
         ((palavrasOf excluir).map (fun p =>
           "(dc.title any \"" ++ p ++ "\" or dc.description any \"" ++ p ++ "\")")) ++ ")")) := by
  constructor
  · rw [List.all_eq_true]
    intro p hp
    rw [palavrasOf_no_space excluir p hp]
    rfl
  · unfold excluirClause
    by_cases hp : palavrasOf excluir = []
    · simp [hp]
    · rw [if_neg hp, if_neg hp]
      have hmap : (palavrasOf excluir).map (fun p =>
          if hasChar p ' '
          then "(dc.title all \"" ++ p ++ "\" or dc.description all \"" ++ p ++ "\")"
          else "(dc.title any \"" ++ p ++ "\" or dc.description any \"" ++ p ++ "\")") =
          (palavrasOf excluir).map (fun p =>
            "(dc.title any \"" ++ p ++ "\" or dc.description any \"" ++ p ++ "\")") := by
        refine List.map_congr_left ?_
        intro p hp2
        rw [palavrasOf_no_space excluir p hp2]
        simp
      rw [hmap]

/-- C7 (amended): the consolidated route clamps the limit into
`[1, 10]` — unparsable input and `0` default to `5`, `-5` clamps to
`1`, `999` to `10` — while the part_003 variant clamps into `[1, 20]`,
so `999` normalizes to `20` there; in both, the given value is never
used unclamped. -/
theorem c7_limit_clamped :
    (∀ v : Option ℚ, 1 ≤ limitOfRoute v ∧ limitOfRoute v ≤ 10) ∧
    limitOfRoute none = 5 ∧ limitOfRoute (some 0) = 5 ∧
    limitOfRoute (some (-5)) = 1 ∧ limitOfRoute (some 999) = 10 ∧
    limitOfV3 (some "abc") = 5 ∧ limitOfV3 (some "0") = 5 ∧
    limitOfV3 (some "-5") = 1 ∧ limitOfV3 (some "999") = 20 ∧
    (∀ s : Option String, 1 ≤ limitOfV3 s ∧ limitOfV3 s ≤ 20) := by
  refine ⟨?_, by norm_num [limitOfRoute], by norm_num [limitOfRoute],
    by norm_num [limitOfRoute], by norm_num [limitOfRoute],
    by decide, by decide, by decide, by decide, ?_⟩
  · intro v
    constructor
    · exact le_max_left _ _
    · exact max_le (by norm_num) (min_le_left _ _)
  · intro s
    constructor
    · exact le_max_left _ _
    · exact max_le (by norm_num) (min_le_left _ _)

/-- C7 counterexample: the part_003 variant normalizes limit `999` to
`20`, outside the claimed `[1, 10]` range. -/
theorem c7_counterexample :
    limitOfV3 (some "999") = 20 ∧ ¬((20 : Int) ≤ 10) := by
  exact ⟨by decide, by norm_num⟩

/-- C6 (amended): keyed first-occurrence deduplication (lower-cased
DOI when present, else lower-cased title) is idempotent, and it is what
the first variant's `runAggregation` orchestrator applies to the merged
list; the consolidated route's `GET` composes its aggregate without
any deduplication. -/
theorem c6_dedup_idempotent :
    (∀ l : List Item, dedupItems (dedupItems l) = dedupItems l) ∧
    (∀ (q : String) (oa sc lex s2 : Option (List Item)),
      (runAggregation q oa sc lex s2).items =
        dedupItems (oa.getD [] ++ sc.getD [] ++ lex.getD [] ++ s2.getD [])) :=
  ⟨dedupItems_idem, fun _ _ _ _ _ => rfl⟩

/-- C6 counterexample: the consolidated route's aggregate keeps two
items that share a dedup key, so the orchestrator did not apply dedup
before composing the response. -/
theorem c6_counterexample :
    GETroute "all" "q" none
      { openalex := { items := [{ source := "openalex", title := "Same" }] },
        scielo := { items := [{ source := "scielo", title := "Same" }] } } =
      .ok { ok := true, query := "q", source := "all", count := 2, errors := [],
            items := [{ source := "openalex", title := "Same" },
                      { source := "scielo", title := "Same" }] } ∧
    dedupItems [{ source := "openalex", title := "Same" },
                { source := "scielo", title := "Same" }] ≠
      [{ source := "openalex", title := "Same" },
       { source := "scielo", title := "Same" }] := by
  exact ⟨by decide, by decide⟩

/-- C10: on every success path of the consolidated route's `GET` and
of part_000's `GET`, the `count` field equals the length of the
`items` array of the same response. -/
theorem c10_count_eq_items_length :
    (∀ (src q : String) (term : Option String) (o : ProviderOutcomes) (agg : Aggregate),
      GETroute src q term o = .ok agg → agg.count = agg.items.length) ∧
    (∀ (q src : String) (o : OutcomesV0) (agg : Aggregate),
      GETv0 q src o = .ok agg → agg.count = agg.items.length) := by
  constructor
  · intro src q term o agg h
    simp only [GETroute] at h
    split at h
    · exact RouteResp.noConfusion h
    · simp only [RouteResp.ok.injEq] at h
      subst h
      rfl
  · intro q src o agg h
    simp only [GETv0] at h
    split at h
    · exact RouteResp.noConfusion h
    · split at h
      · exact RouteResp.noConfusion h
      · simp only [RouteResp.ok.injEq] at h
        subst h
        rfl

/-- C10 witness: the invariant at a concrete request. -/
theorem c10_witness :
    ({ ok := true, query := "q", source := "all", count := 0, errors := [],
       items := [] } : Aggregate).count =
    ({ ok := true, query := "q", source := "all", count := 0, errors := [],
       items := [] } : Aggregate).items.length :=
  c10_count_eq_items_length.1 "all" "q" none {} _ (by decide)

/-- C1 counterexample: the consolidated route's builder, given an
empty `term` together with non-empty `documentTypes` and `yearOrRange`
filters, signals the missing-query error instead of building the AND
expression the claim describes. -/
theorem c1_counterexample :
    buildLexmlCQL { term := "", tipo := "Legislation, Case Law", ano := "2020" } =
      { cql := "", ok := false, why := some "missing_term" } := by decide

/-- C1 (amended): for the part_002 builder an empty `term` with other
non-empty usable dimensions yields exactly the AND of the surviving
per-dimension clauses, with no title/description clause — shown on the
spec's scenario and in general (the expression is the join of the six
non-term clauses whenever the term dimension contributes nothing);
the consolidated route's builder instead requires a non-empty `term`
and reports `missing_term` even when other dimensions are usable. -/
theorem c1_empty_term_builder :
    buildLexmlCQLv2 { term := none, tipo_documento := some "Legislation, Case Law",
                      ano := some "2020" } =
      "(facet-tipoDocumento any \"Legislation\" or facet-tipoDocumento all \"Case Law\") and date any \"2020\"" ∧
    (∀ p : LexmlParamsV2, termClauseV2 p.term = none →
      buildLexmlCQLv2 p = joinSep " and " (List.reduceOption
        [tipoClauseV2 p.tipo_documento, numeroClauseV2 p.numero, anoClauseV2 p.ano,
         localidadeClauseV2 p.localidade, autoridadeClauseV2 p.autoridade,
         excluirClauseV2 p.excluir])) ∧
    (∀ p : LexmlParams, trimJS p.term = "" →
      buildLexmlCQL p = { cql := "", ok := false, why := some "missing_term" }) := by
  refine ⟨by decide, ?_, ?_⟩
  · intro p h
    unfold buildLexmlCQLv2
    rw [h]
    rfl
  · intro p h
    unfold buildLexmlCQL
    rw [if_pos h]

/-- C1 witness: the general statements applied to concrete filter
sets with an empty term. -/
theorem c1_witness :
    buildLexmlCQLv2 { term := some "", tipo_documento := some "Legislação" } =
      joinSep " and " (List.reduceOption
        [tipoClauseV2 (some "Legislação"), numeroClauseV2 none, anoClauseV2 none,
         localidadeClauseV2 none, autoridadeClauseV2 none, excluirClauseV2 none]) ∧
    buildLexmlCQL { term := " ", tipo := "Legislação" } =
      { cql := "", ok := false, why := some "missing_term" } :=
  ⟨c1_empty_term_builder.2.1 { term := some "", tipo_documento := some "Legislação" } (by decide),
   c1_empty_term_builder.2.2 { term := " ", tipo := "Legislação" } (by decide)⟩

/-- C2 counterexample: the consolidated route's extractor, on a record
block with no extractable title, emits an item with the placeholder
title `"Sem título"` instead of dropping the block. -/
theorem c2_counterexample :
    parseLexmlDC "<record></record>" 5 =
      [{ source := "lexml", title := "Sem título" }] := by decide

/-- C2 (amended): both legal-document record extractors yield at most
`limit` items; the part_002 extractor drops every block without an
extractable title (each emitted item has a non-empty extracted title),
while the consolidated route's extractor emits such blocks with the
placeholder title `"Sem título"`. -/
theorem c2_extractor_limit_and_title_drop (xml : String) (limit : Nat) :
    (parseLexmlDC xml limit).length ≤ limit ∧
    (parseLexmlDCv2 xml limit).length ≤ limit ∧
    (parseLexmlDCv2 xml limit).all (fun it => it.title != "") = true := by
  refine ⟨List.length_take_le _ _, List.length_take_le _ _, ?_⟩
  rw [List.all_eq_true]
  intro it hit
  have hmem := List.mem_of_mem_take hit
  obtain ⟨c, -, hc⟩ := List.mem_filterMap.mp hmem
  have := mkItemV2_title_ne c it hc
  simpa [bne_iff_ne] using this

/-- C3 counterexample: the consolidated route's handler, given a
provider-selection value that matches no configured provider, returns
a successful aggregate with zero adapters invoked (no items, no
errors) instead of an unknown-provider error. -/
theorem c3_counterexample :
    GETroute "bogus" "climate" none
      { openalex := { items := [{ source := "openalex", title := "X" }] } } =
      .ok { ok := true, query := "climate", source := "bogus", count := 0,
            errors := [], items := [] } := by decide

/-- C3 (amended): part_000's handler reports the request-level error
`unknown_source_<src>` for every selection outside its configured
set and aliases, independently of any adapter outcome (so before any
adapter runs); the consolidated route's handler instead returns a
successful empty aggregate with zero adapters invoked. -/
theorem c3_unknown_provider :
    (∀ (q src : String) (o : OutcomesV0),
      trimJS q ≠ "" →
      toLowerJS src ∉ (["all", "openalex", "scielo", "lexml", "s2",
        "semanticscholar", "scholar", "serpapi"] : List String) →
      GETv0 q src o = .err ("unknown_source_" ++ toLowerJS src)) ∧
    (∀ (src q : String) (term : Option String) (o : ProviderOutcomes),
      q ≠ "" →
      toLowerJS src ∉ (["all", "openalex", "scielo", "openai_web", "serpapi_scholar",
        "semanticscholar", "perplexity", "lexml"] : List String) →
      GETroute src q term o =
        .ok { ok := true, query := jsOrStr term q, source := toLowerJS src,
              count := 0, errors := [], items := [] }) := by
  constructor
  · intro q src o hq hsrc
    simp only [List.mem_cons, List.mem_singleton, not_or] at hsrc
    obtain ⟨h1, h2, h3, h4, h5, h6, h7, h8⟩ := hsrc
    simp [GETv0, tasksV0, hq, h1, h2, h3, h4, h5, h6, h7,
      (by simpa using h8 : toLowerJS src ≠ "serpapi")]
  · intro src q term o hq hsrc
    simp only [List.mem_cons, List.mem_singleton, not_or] at hsrc
    obtain ⟨h1, h2, h3, h4, h5, h6, h7, h8⟩ := hsrc
    simp [GETroute, jobsRoute, flatItems, collectErrors, hq, h1, h2, h3, h4, h5, h6, h7,
      (by simpa using h8 : toLowerJS src ≠ "lexml")]

/-- C3 witness: the two handler behaviours at concrete unknown
provider ids. -/
theorem c3_witness :
    GETv0 "x" "weird" {} = .err ("unknown_source_" ++ toLowerJS "weird") ∧
    GETroute "weird2" "x" none {} =
      .ok { ok := true, query := jsOrStr none "x", source := toLowerJS "weird2",
            count := 0, errors := [], items := [] } :=
  ⟨c3_unknown_provider.1 "x" "weird" {} (by decide) (by decide),
   c3_unknown_provider.2 "weird2" "x" none {} (by decide) (by decide)⟩

/-- C4 counterexample: part_002's SciELO adapter, whose upstream
response has the non-success status 403, returns a non-empty item list
(the OpenAlex fallback's items) together with its single error code
`scielo_403`, so the zero-items part of the claim fails. -/
theorem c4_counterexample :
    (fetchScieloV2 5 ⟨403, ⟨[]⟩⟩ ⟨200, [{ title := some "W" }]⟩).error =
      some "scielo_403" ∧
    (fetchScieloV2 5 ⟨403, ⟨[]⟩⟩ ⟨200, [{ title := some "W" }]⟩).items ≠ [] := by
  exact ⟨by decide, by decide⟩

/-- C4 (amended): a provider call with a non-success upstream status
yields zero items and exactly the single error code
`<provider>_<status>` — shown for the consolidated OpenAlex adapter on
every non-success status and for part_002's SciELO adapter on every
non-success status other than 403; on 403 that SciELO adapter still
reports exactly the code `scielo_403` but may also carry fallback
items; and each provider's items enter the aggregate as their own
verbatim segment, unaffected by the other providers' results. -/
theorem c4_status_error_isolation :
    (∀ (limit : Nat) (resp : HttpResp (List OpenAlexWork)),
      httpOk resp.status = false →
      fetchOpenAlexResult limit resp =
        { items := [], error := some ("openalex_" ++ toString resp.status) }) ∧
    (∀ (limit : Nat) (primary : HttpResp ScieloBody) (fb : HttpResp (List OpenAlexWork)),
      primary.status ≠ 403 → httpOk primary.status = false →
      fetchScieloV2 limit primary fb =
        { items := [], error := some ("scielo_" ++ toString primary.status) }) ∧
    (∀ (limit : Nat) (primary : HttpResp ScieloBody) (fb : HttpResp (List OpenAlexWork)),
      primary.status = 403 →
      (fetchScieloV2 limit primary fb).error = some "scielo_403") ∧
    (∀ (q : String) (term : Option String) (o : ProviderOutcomes),
      q ≠ "" →
      GETroute "all" q term o =
        .ok { ok := true, query := jsOrStr term q, source := "all",
              count := (o.openalex.items ++ o.scielo.items ++ o.openaiWeb.items ++
                o.serpapiScholar.items ++ o.semanticscholar.items ++
                o.perplexity.items ++ o.lexml.items).length,
              errors := collectErrors [o.openalex, o.scielo, o.openaiWeb,
                o.serpapiScholar, o.semanticscholar, o.perplexity, o.lexml],
              items := o.openalex.items ++ o.scielo.items ++ o.openaiWeb.items ++
                o.serpapiScholar.items ++ o.semanticscholar.items ++
                o.perplexity.items ++ o.lexml.items }) := by
  refine ⟨?_, ?_, ?_, ?_⟩
  · intro limit resp h
    simp [fetchOpenAlexResult, h]
  · intro limit primary fb h1 h2
    simp [fetchScieloV2, h1, h2]
  · intro limit primary fb h
    by_cases hf : httpOk fb.status <;> simp [fetchScieloV2, h, hf]
  · intro q term o hq
    have hall : toLowerJS "all" = "all" := by decide
    simp [GETroute, jobsRoute, flatItems, hall, hq]

/-- C4 witness: the error-path behaviour at concrete non-success
statuses. -/
theorem c4_witness :
    (httpOk 500 = false ∧
      fetchOpenAlexResult 3 ⟨500, []⟩ =
        { items := [], error := some ("openalex_" ++ toString (500 : Nat)) }) ∧
    fetchScieloV2 3 ⟨500, ⟨[]⟩⟩ ⟨200, []⟩ =
      { items := [], error := some ("scielo_" ++ toString (500 : Nat)) } :=
  ⟨⟨by decide, c4_status_error_isolation.1 3 ⟨500, []⟩ (by decide)⟩,
   c4_status_error_isolation.2.1 3 ⟨500, ⟨[]⟩⟩ ⟨200, []⟩ (by decide) (by decide)⟩

/-- C8 counterexample: the consolidated route's SerpAPI web adapter
with no credential returns the error code `serpapi_missing_key`, not
the claimed exact form `serpapi_missing_api_key`. -/
theorem c8_counterexample :
    fetchSerpWeb none 5 ⟨200, []⟩ =
      { items := [], error := some "serpapi_missing_key" } ∧
    "serpapi_missing_key" ≠ "serpapi_missing_api_key" := by
  exact ⟨by decide, by decide⟩

/-- C8 (amended): every credential-requiring adapter with an absent
credential returns zero items and a single missing-credential error
code without making a network call (the result is constant in the
HTTP response) — but the exact codes are `serpapi_missing_key` and
`perplexity_missing_key` in the consolidated route, and
`scholar_missing_api_key` only in part_000's Scholar adapter. -/
theorem c8_missing_credential :
    (∀ (limit : Nat) (resp : HttpResp (List SerpOrganic)),
      fetchSerpWeb none limit resp = { items := [], error := some "serpapi_missing_key" }) ∧
    (∀ (limit : Nat) (resp : HttpResp (List SerpOrganic)),
      fetchSerpWeb (some "") limit resp = { items := [], error := some "serpapi_missing_key" }) ∧
    (∀ (limit : Nat) (r1 r2 : HttpResp (List SerpOrganic)),
      fetchSerpWeb none limit r1 = fetchSerpWeb none limit r2) ∧
    (∀ (limit : Nat) (resp : HttpResp (List String)),
      fetchPerplexityR none limit resp = { items := [], error := some "perplexity_missing_key" }) ∧
    (∀ (limit : Nat) (resp : HttpResp (List ScholarRow)),
      fetchScholarSerp0 none limit resp = { items := [], error := some "scholar_missing_api_key" }) :=
  ⟨fun _ _ => rfl, fun _ _ => rfl, fun _ _ _ => rfl, fun _ _ => rfl, fun _ _ => rfl⟩

end Sources
